import Mathlib

/-!
Verification of the network-diagnostic tools (src/tools/network.py).

The repository exposes two operations: `get_network_configs`, a thin wrapper
around a platform command invocation, and `scan_ports`, a concurrent TCP
port scanner.  This file gives a shallow embedding of both and proves the
behavioural properties claimed of them.

Modelling choices, all taken from the source:
* The network is an oracle `net : String → Int → Option String`: `none`
  means a TCP connection to `(host, port)` succeeds, `some exc` means the
  connection attempt raises an exception whose text is `exc`.  This models
  the body of the inner `probe` worker, which catches every exception.
* The thread pool plus `as_completed` loop is an oracle
  `sched : List Int → List (Int × Option String)`: given the dispatched
  ports list it yields the tasks in the arbitrary order the loop consumes
  them; each task carries its port and, optionally, the text of an
  unexpected error raised by the execution machinery itself (the
  `fut.result()` call).  A scheduler is valid (`SchedValid`) when it yields
  exactly one task per dispatched port, in some order.
* Python `int(p)` coercion of list elements is modelled by `pyInt` over a
  small value type `PyVal`; `ValueError` is modelled as `Except.error`.
-/

/-- Python-level value supplied inside the `ports` argument.  The source runs
`int(p)` on each element, which succeeds on integers and numeric strings and
raises on non-numeric strings. -/
inductive PyVal where
  | vInt (n : Int)
  | vStr (s : String)
  deriving Repr, DecidableEq

/-- Message of the `ValueError` raised when neither ports source is given
(`network.py` line 94). -/
def msgNoPorts : String := "either \x27ports\x27 or \x27port_range\x27 must be provided"

/-- Message of the `ValueError` raised for a malformed `port_range`
(`network.py` line 103). -/
def msgBadRange : String := "invalid port_range; ports must be between 1 and 65535"

/-- Numeric value of a decimal digit character, if it is one. -/
def charDigit (c : Char) : Option Nat :=
  if 48 ≤ c.toNat ∧ c.toNat ≤ 57 then some (c.toNat - 48) else none

/-- Accumulate a run of decimal digit characters into a natural number,
failing at the first non-digit. -/
def parseDigitsAux : List Char → Nat → Option Nat
  | [], acc => some acc
  | c :: cs, acc =>
    match charDigit c with
    | none => none
    | some d => parseDigitsAux cs (acc * 10 + d)

/-- Parse a non-empty run of decimal digits. -/
def parseDigits : List Char → Option Nat
  | [] => none
  | cs => parseDigitsAux cs 0

/-- Python `int(...)` applied to a string, modelled on the character list:
an optional leading minus sign followed by at least one decimal digit;
anything else fails. -/
def pyStrToInt (s : String) : Option Int :=
  match s.data with
  | '-' :: cs => (parseDigits cs).map (fun n => -(Int.ofNat n))
  | cs => (parseDigits cs).map Int.ofNat

/-- Python `int(p)` on a `ports` element: identity on integers, string
parsing on strings, raising `ValueError` on non-numeric text. -/
def pyInt : PyVal → Except String Int
  | .vInt n => .ok n
  | .vStr s =>
    match pyStrToInt s with
    | some n => .ok n
    | none => .error ("invalid literal for int() with base 10: " ++ s)

/-- The list comprehension `[int(p) for p in ports]` (line 99): coerces left
to right, raising at the first non-coercible element. -/
def coercePorts : List PyVal → Except String (List Int)
  | [] => .ok []
  | p :: ps =>
    match pyInt p with
    | .error e => .error e
    | .ok n =>
      match coercePorts ps with
      | .error e => .error e
      | .ok ns => .ok (n :: ns)

/-- `list(range(start, end + 1))` (line 104): the inclusive integer range. -/
def rangeList (s e : Int) : List Int :=
  (List.range (e + 1 - s).toNat).map (fun i => s + Int.ofNat i)

/-- Validation and port-list construction of `scan_ports` (lines 93 to 104):
no source at all raises, an explicit list is coerced element-wise with no
range check, and a range is bounds-checked before expansion. -/
def buildPortsList : Option (List PyVal) → Option (Int × Int) → Except String (List Int)
  | none, none => .error msgNoPorts
  | some ps, _ => coercePorts ps
  | none, some pr =>
    if 1 ≤ pr.1 ∧ pr.1 ≤ 65535 ∧ 1 ≤ pr.2 ∧ pr.2 ≤ 65535 ∧ pr.1 ≤ pr.2 then
      .ok (rangeList pr.1 pr.2)
    else
      .error msgBadRange

/-- The inner `probe` worker (lines 107 to 116): one connection attempt,
returning `(port, True, None)` on success and `(port, False, str(exc))` on
any exception. -/
def probe (net : String → Int → Option String) (host : String) (port : Int) :
    Int × Bool × Option String :=
  match net host port with
  | none => (port, true, none)
  | some exc => (port, false, some exc)

/-- The f-string `f"port {port}: {err}"` of line 133. -/
def probeErrMsg (port : Int) (err : String) : String :=
  "port " ++ (toString port ++ (": " ++ err))

/-- The f-string `f"port {p}: unexpected error {exc}"` of line 137. -/
def unexpectedErrMsg (port : Int) (exc : String) : String :=
  "port " ++ (toString port ++ (": unexpected error " ++ exc))

/-- One iteration of the `as_completed` loop (lines 124 to 137), acting on
the accumulator `(open_ports, closed_or_filtered, errors)`.  A task whose
second component is `some exc` models `fut.result()` itself raising; it is
recorded as closed together with the unexpected-error message.  Otherwise
the probe result is consumed exactly as in the source: open ports are
appended to the first list, failed ports to the second, and a truthy
(non-empty) error text is appended formatted to the third. -/
def consumeOutcome (net : String → Int → Option String) (host : String)
    (acc : List Int × List Int × List String) (task : Int × Option String) :
    List Int × List Int × List String :=
  match task with
  | (p, some exc) =>
    (acc.1, acc.2.1 ++ [p], acc.2.2 ++ [unexpectedErrMsg p exc])
  | (p, none) =>
    match probe net host p with
    | (port, true, _) => (acc.1 ++ [port], acc.2.1, acc.2.2)
    | (port, false, some err) =>
      if err = "" then (acc.1, acc.2.1 ++ [port], acc.2.2)
      else (acc.1, acc.2.1 ++ [port], acc.2.2 ++ [probeErrMsg port err])
    | (port, false, none) => (acc.1, acc.2.1 ++ [port], acc.2.2)

/-- Whether a task's outcome is open: never for a machinery error, and for a
normal task exactly when the connection succeeds. -/
def taskIsOpen (net : String → Int → Option String) (host : String)
    (task : Int × Option String) : Bool :=
  match task with
  | (p, none) => (net host p).isNone
  | (_, some _) => false

/-- The error message a task contributes to the raw `errors` list, if any:
machinery errors always contribute the unexpected-error message, probe
failures contribute the formatted message exactly when the raw exception
text is non-empty (the `if err:` truthiness test of line 131). -/
def taskError (net : String → Int → Option String) (host : String)
    (task : Int × Option String) : Option String :=
  match task with
  | (p, some exc) => some (unexpectedErrMsg p exc)
  | (p, none) =>
    match net host p with
    | none => none
    | some err => if err = "" then none else some (probeErrMsg p err)

/-- One step of `dict.fromkeys`-style deduplication: keep a string only if
it has not been kept already. -/
def dedupStep (acc : List String) (x : String) : List String :=
  if x ∈ acc then acc else acc ++ [x]

/-- `list(dict.fromkeys(errors))` (line 142): remove duplicate strings,
keeping the first occurrence of each, in first-occurrence order. -/
def pyDedup (l : List String) : List String := l.foldl dedupStep []

/-- Specification-side description of first-occurrence deduplication: keep
the head, then recurse on the tail with every later copy of the head
removed.  Used to state that `pyDedup` keeps each distinct message at the
position of its first occurrence. -/
def firstOccurrences : List String → List String
  | [] => []
  | x :: xs => x :: firstOccurrences (xs.filter (fun y => decide (¬ y = x)))
termination_by l => l.length
decreasing_by
  simp only [List.length_cons]
  exact Nat.lt_succ_of_le (List.length_filter_le _ xs)

/-- The JSON-serializable report returned by `scan_ports` (lines 144 to 149). -/
structure ScanResult where
  target : String
  open_ports : List Int
  closed_or_filtered : List Int
  errors : List String
  deriving Repr, DecidableEq

/-- The result-assembly part of `scan_ports` (lines 118 to 149): consume the
completed tasks in order, sort both port lists ascending, deduplicate the
error messages, and build the report. -/
def runScan (net : String → Int → Option String) (host : String)
    (tasks : List (Int × Option String)) : ScanResult :=
  let acc := tasks.foldl (consumeOutcome net host) ([], [], [])
  { target := host
    open_ports := List.insertionSort (fun a b => a ≤ b) acc.1
    closed_or_filtered := List.insertionSort (fun a b => a ≤ b) acc.2.1
    errors := pyDedup acc.2.2 }

/-- The whole `scan_ports` tool (lines 37 to 149): validate and build the
ports list, dispatch one probe per entry through the scheduler, and
aggregate the consumed outcomes.  A `ValueError` is `Except.error`. -/
def scan_ports (net : String → Int → Option String)
    (sched : List Int → List (Int × Option String)) (host : String)
    (ports : Option (List PyVal)) (port_range : Option (Int × Int)) :
    Except String ScanResult :=
  match buildPortsList ports port_range with
  | .error e => .error e
  | .ok pl => .ok (runScan net host (sched pl))

/-- A scheduler is valid when it consumes exactly one task per dispatched
port, in an arbitrary order: the multiset of task ports equals the multiset
of dispatched ports.  This is what `ThreadPoolExecutor.submit` (one future
per list entry, lines 122 to 123) together with `as_completed` (each future
yielded exactly once) guarantees. -/
def SchedValid (sched : List Int → List (Int × Option String)) : Prop :=
  ∀ pl : List Int, ((sched pl).map Prod.fst).Perm pl

/-- The scheduler that consumes tasks in submission order with no machinery
errors. -/
def schedId : List Int → List (Int × Option String) :=
  fun pl => pl.map (fun p => (p, none))

/-- A network on which every connection attempt succeeds. -/
def netAllOpen : String → Int → Option String := fun _ _ => none

/-- A network on which every connection attempt is refused. -/
def netAllClosed : String → Int → Option String :=
  fun _ _ => some "Connection refused"

/-- A network where only port 443 is open and every other probe times out. -/
def netTimeout80 : String → Int → Option String :=
  fun _ p => if p = 443 then none else some "timed out"

/-- Result of `subprocess.run`: captured standard output and error, and the
exit code of the invoked command. -/
structure CompletedProcess where
  stdout : String
  stderr : String
  returncode : Int
  deriving Repr, DecidableEq

/-- The dictionary returned by `get_network_configs`. -/
structure ConfigResult where
  status : String
  network_configs : String
  deriving Repr, DecidableEq

/-- `get_network_configs` (lines 18 to 32), parameterized by the outcome of
the `subprocess.run("ifconfig", ..., check=False)` invocation: `Except.ok`
carries the completed process (whatever its exit code, since `check=False`
never raises on a non-zero code), `Except.error` carries the text of the
exception raised when the invocation could not start. -/
def get_network_configs (invoke : Except String CompletedProcess) : ConfigResult :=
  match invoke with
  | .ok out => { status := "success", network_configs := out.stdout }
  | .error e => { status := "error", network_configs := e }

/-! ## Helper lemmas -/

theorem schedId_valid : SchedValid schedId := by
  intro pl
  have h : (schedId pl).map Prod.fst = pl := by
    simp only [schedId, List.map_map]
    exact List.map_id pl
  rw [h]

theorem coercePorts_map_vInt (ns : List Int) :
    coercePorts (ns.map PyVal.vInt) = Except.ok ns := by
  induction ns with
  | nil => rfl
  | cons n ns ih => simp [coercePorts, pyInt, ih]

theorem scan_ports_ok_core (net : String → Int → Option String)
    (sched : List Int → List (Int × Option String)) (host : String)
    (ports : Option (List PyVal)) (pr : Option (Int × Int)) (pl : List Int)
    (hb : buildPortsList ports pr = Except.ok pl) :
    scan_ports net sched host ports pr = Except.ok (runScan net host (sched pl)) := by
  simp [scan_ports, hb]

theorem scan_ports_ok_inv (net : String → Int → Option String)
    (sched : List Int → List (Int × Option String)) (host : String)
    (ports : Option (List PyVal)) (pr : Option (Int × Int)) (pl : List Int)
    (r : ScanResult)
    (hb : buildPortsList ports pr = Except.ok pl)
    (hr : scan_ports net sched host ports pr = Except.ok r) :
    r = runScan net host (sched pl) := by
  rw [scan_ports_ok_core net sched host ports pr pl hb] at hr
  exact (Except.ok.injEq _ _ ▸ hr).symm

theorem consumeOutcome_ports_perm (net : String → Int → Option String)
    (host : String) (acc : List Int × List Int × List String)
    (t : Int × Option String) :
    ((consumeOutcome net host acc t).1 ++ (consumeOutcome net host acc t).2.1).Perm
      ((acc.1 ++ acc.2.1) ++ [t.1]) := by
  rcases t with ⟨p, m⟩
  cases m with
  | some exc =>
    simp [consumeOutcome, List.append_assoc]
  | none =>
    cases hnp : net host p with
    | none =>
      simp only [consumeOutcome, probe, hnp]
      rw [List.append_assoc, List.append_assoc]
      exact List.Perm.append_left acc.1 List.perm_append_comm
    | some e =>
      by_cases he : e = "" <;>
        simp [consumeOutcome, probe, hnp, he, List.append_assoc]

theorem foldl_consume_ports_perm (net : String → Int → Option String)
    (host : String) (tasks : List (Int × Option String)) :
    ∀ acc : List Int × List Int × List String,
      ((tasks.foldl (consumeOutcome net host) acc).1 ++
        (tasks.foldl (consumeOutcome net host) acc).2.1).Perm
        ((acc.1 ++ acc.2.1) ++ tasks.map Prod.fst) := by
  induction tasks with
  | nil => intro acc; simp
  | cons t ts ih =>
    intro acc
    rw [List.foldl_cons]
    refine (ih (consumeOutcome net host acc t)).trans ?_
    refine (List.Perm.append_right (ts.map Prod.fst)
      (consumeOutcome_ports_perm net host acc t)).trans ?_
    simp [List.append_assoc]

theorem runScan_ports_perm (net : String → Int → Option String) (host : String)
    (tasks : List (Int × Option String)) :
    ((runScan net host tasks).open_ports ++
      (runScan net host tasks).closed_or_filtered).Perm (tasks.map Prod.fst) := by
  have h1 := foldl_consume_ports_perm net host tasks ([], [], [])
  simp only [List.nil_append] at h1
  have h2 : ((runScan net host tasks).open_ports ++
      (runScan net host tasks).closed_or_filtered).Perm
      ((tasks.foldl (consumeOutcome net host) ([], [], [])).1 ++
        (tasks.foldl (consumeOutcome net host) ([], [], [])).2.1) := by
    simp only [runScan]
    exact List.Perm.append (List.perm_insertionSort _ _) (List.perm_insertionSort _ _)
  exact h2.trans h1

theorem foldl_consume_errors (net : String → Int → Option String)
    (host : String) (tasks : List (Int × Option String)) :
    ∀ acc : List Int × List Int × List String,
      (tasks.foldl (consumeOutcome net host) acc).2.2 =
        acc.2.2 ++ tasks.filterMap (taskError net host) := by
  induction tasks with
  | nil => intro acc; simp
  | cons t ts ih =>
    intro acc
    rw [List.foldl_cons, ih]
    rcases t with ⟨p, m⟩
    cases m with
    | some exc =>
      simp [consumeOutcome, taskError, List.filterMap_cons, List.append_assoc]
    | none =>
      cases hnp : net host p with
      | none =>
        simp [consumeOutcome, probe, taskError, hnp, List.filterMap_cons]
      | some e =>
        by_cases he : e = "" <;>
          simp [consumeOutcome, probe, taskError, hnp, he, List.filterMap_cons,
            List.append_assoc]

theorem runScan_errors_eq (net : String → Int → Option String) (host : String)
    (tasks : List (Int × Option String)) :
    (runScan net host tasks).errors =
      pyDedup (tasks.filterMap (taskError net host)) := by
  simp only [runScan]
  rw [foldl_consume_errors net host tasks ([], [], [])]
  simp

theorem foldl_dedupStep_nodup (l : List String) :
    ∀ acc : List String, acc.Nodup → (l.foldl dedupStep acc).Nodup := by
  induction l with
  | nil => intro acc h; simpa using h
  | cons x xs ih =>
    intro acc h
    rw [List.foldl_cons]
    by_cases hx : x ∈ acc
    · rw [dedupStep, if_pos hx]
      exact ih acc h
    · rw [dedupStep, if_neg hx]
      refine ih (acc ++ [x]) ?_
      rw [List.nodup_append]
      refine ⟨h, List.nodup_singleton x, ?_⟩
      intro a ha hax
      rw [List.mem_singleton] at hax
      exact hx (hax ▸ ha)

theorem mem_foldl_dedupStep (l : List String) :
    ∀ (acc : List String) (y : String),
      y ∈ l.foldl dedupStep acc ↔ y ∈ acc ∨ y ∈ l := by
  induction l with
  | nil => intro acc y; simp
  | cons x xs ih =>
    intro acc y
    rw [List.foldl_cons]
    by_cases hx : x ∈ acc
    · rw [dedupStep, if_pos hx, ih]
      constructor
      · rintro (h | h)
        · exact Or.inl h
        · exact Or.inr (List.mem_cons_of_mem _ h)
      · rintro (h | h)
        · exact Or.inl h
        · rcases List.mem_cons.mp h with h | h
          · exact Or.inl (h ▸ hx)
          · exact Or.inr h
    · rw [dedupStep, if_neg hx, ih]
      simp [List.mem_append, List.mem_cons]
      tauto

theorem pyDedup_nodup (l : List String) : (pyDedup l).Nodup :=
  foldl_dedupStep_nodup l [] List.nodup_nil

theorem mem_pyDedup (l : List String) (y : String) :
    y ∈ pyDedup l ↔ y ∈ l := by
  rw [pyDedup, mem_foldl_dedupStep]
  simp

theorem foldl_dedupStep_eq_firstOccurrences (l : List String) :
    ∀ acc : List String,
      l.foldl dedupStep acc =
        acc ++ firstOccurrences (l.filter (fun y => decide (¬ y ∈ acc))) := by
  induction l with
  | nil => intro acc; simp [firstOccurrences]
  | cons x xs ih =>
    intro acc
    rw [List.foldl_cons]
    by_cases hx : x ∈ acc
    · rw [dedupStep, if_pos hx, ih, List.filter_cons]
      simp [hx]
    · rw [dedupStep, if_neg hx, ih, List.filter_cons]
      rw [if_pos (show decide (¬ x ∈ acc) = true by simpa using hx)]
      have hFO : firstOccurrences (x :: xs.filter (fun y => decide (¬ y ∈ acc))) =
          x :: firstOccurrences ((xs.filter (fun y => decide (¬ y ∈ acc))).filter
            (fun y => decide (¬ y = x))) := by
        simp only [firstOccurrences]
      have hfil : (xs.filter (fun y => decide (¬ y ∈ acc))).filter
          (fun y => decide (¬ y = x)) =
          xs.filter (fun y => decide (¬ y ∈ acc ++ [x])) := by
        rw [List.filter_filter]
        refine List.filter_congr ?_
        intro a _
        rcases Decidable.em (a = x) with hax | hax <;>
          rcases Decidable.em (a ∈ acc) with haa | haa <;>
            simp [hax, haa]
      rw [hFO, hfil, List.append_assoc]
      rfl

theorem pyDedup_eq_firstOccurrences (l : List String) :
    pyDedup l = firstOccurrences l := by
  rw [pyDedup, foldl_dedupStep_eq_firstOccurrences l []]
  have h : l.filter (fun y => decide (¬ y ∈ ([] : List String))) = l := by
    refine List.filter_eq_self.mpr ?_
    intro a _
    simp
  rw [h]
  rfl

theorem probeErrMsg_ne_empty (port : Int) (err : String) :
    probeErrMsg port err ≠ "" := by
  intro h
  have hl := congrArg String.length h
  rw [probeErrMsg, String.length_append] at hl
  have h5 : ("port " : String).length = 5 := rfl
  have h0 : ("" : String).length = 0 := rfl
  omega

theorem unexpectedErrMsg_ne_empty (port : Int) (exc : String) :
    unexpectedErrMsg port exc ≠ "" := by
  intro h
  have hl := congrArg String.length h
  rw [unexpectedErrMsg, String.length_append] at hl
  have h5 : ("port " : String).length = 5 := rfl
  have h0 : ("" : String).length = 0 := rfl
  omega

theorem taskError_not_open (net : String → Int → Option String) (host : String)
    (t : Int × Option String) (e : String)
    (h : taskError net host t = some e) :
    taskIsOpen net host t = false := by
  rcases t with ⟨p, m⟩
  cases m with
  | some exc => rfl
  | none =>
    rw [taskIsOpen]
    cases hnp : net host p with
    | none =>
      rw [taskError, hnp] at h
      exact absurd h (by simp)
    | some err => simp [hnp]

theorem taskError_ne_empty (net : String → Int → Option String) (host : String)
    (t : Int × Option String) (e : String)
    (h : taskError net host t = some e) :
    e ≠ "" := by
  rcases t with ⟨p, m⟩
  cases m with
  | some exc =>
    rw [taskError] at h
    have he : e = unexpectedErrMsg p exc := by
      exact (Option.some.injEq _ _ ▸ h).symm
    exact he ▸ unexpectedErrMsg_ne_empty p exc
  | none =>
    rw [taskError] at h
    cases hnp : net host p with
    | none => rw [hnp] at h; exact absurd h (by simp)
    | some err =>
      rw [hnp] at h
      by_cases herr : err = ""
      · simp [herr] at h
      · simp only [if_neg herr, Option.some.injEq] at h
        exact h ▸ probeErrMsg_ne_empty p err

theorem runScan_open_sorted (net : String → Int → Option String) (host : String)
    (tasks : List (Int × Option String)) :
    ((runScan net host tasks).open_ports).Sorted (fun a b : Int => a ≤ b) := by
  simp only [runScan]
  exact List.sorted_insertionSort _ _

theorem runScan_closed_sorted (net : String → Int → Option String) (host : String)
    (tasks : List (Int × Option String)) :
    ((runScan net host tasks).closed_or_filtered).Sorted (fun a b : Int => a ≤ b) := by
  simp only [runScan]
  exact List.sorted_insertionSort _ _

theorem runScan_length (net : String → Int → Option String) (host : String)
    (tasks : List (Int × Option String)) :
    (runScan net host tasks).open_ports.length +
      (runScan net host tasks).closed_or_filtered.length = tasks.length := by
  have h := (runScan_ports_perm net host tasks).length_eq
  rw [List.length_append, List.length_map] at h
  exact h

theorem runScan_count (net : String → Int → Option String) (host : String)
    (tasks : List (Int × Option String)) (p : Int) :
    (runScan net host tasks).open_ports.count p +
      (runScan net host tasks).closed_or_filtered.count p =
      (tasks.map Prod.fst).count p := by
  have h := (runScan_ports_perm net host tasks).count_eq p
  rw [List.count_append] at h
  exact h

theorem rangeList_length (s e : Int) :
    (rangeList s e).length = (e + 1 - s).toNat := by
  rw [rangeList, List.length_map, List.length_range]

/-! ## Claims -/

/-- Claim C2: for every call of `scan_ports` whose arguments pass validation,
the call never raises: it returns a `ScanResult` with exactly one outcome
per requested port entry, for every network behaviour (`net` arbitrary,
covering timeout, refusal, unreachable host and DNS failure) and every
execution of the machinery (`sched` arbitrary valid scheduler, whose tasks
may carry unexpected machinery errors). -/
theorem scan_ports_never_raises (net : String → Int → Option String)
    (sched : List Int → List (Int × Option String)) (host : String)
    (ports : Option (List PyVal)) (pr : Option (Int × Int)) (pl : List Int)
    (hs : SchedValid sched) (hb : buildPortsList ports pr = Except.ok pl) :
    ∃ r, scan_ports net sched host ports pr = Except.ok r ∧
      r.open_ports.length + r.closed_or_filtered.length = pl.length ∧
      ∀ p : Int, r.open_ports.count p + r.closed_or_filtered.count p = pl.count p := by
  refine ⟨runScan net host (sched pl),
    scan_ports_ok_core net sched host ports pr pl hb, ?_, ?_⟩
  · rw [runScan_length net host (sched pl)]
    have h := (hs pl).length_eq
    rw [List.length_map] at h
    exact h
  · intro p
    rw [runScan_count net host (sched pl) p]
    exact (hs pl).count_eq p

/-- Witness for claim C2 at a concrete input: one integer port, an
all-refusing network, submission-order scheduling. -/
theorem scan_ports_never_raises_witness :
    SchedValid schedId ∧
    buildPortsList (some [PyVal.vInt 22]) none = Except.ok [22] ∧
    ∃ r, scan_ports netAllClosed schedId "h" (some [PyVal.vInt 22]) none = Except.ok r ∧
      r.open_ports.length + r.closed_or_filtered.length = ([(22 : Int)]).length ∧
      ∀ p : Int, r.open_ports.count p + r.closed_or_filtered.count p =
        ([(22 : Int)]).count p :=
  ⟨schedId_valid, rfl,
    scan_ports_never_raises netAllClosed schedId "h" (some [PyVal.vInt 22]) none
      [22] schedId_valid rfl⟩

/-- Claim C3: `scan_ports` raises `InvalidArgument` when neither `ports` nor
`port_range` is given, and for `port_range = (0, 10)` or `(100, 50)`; these
error results hold for every network and scheduler oracle, so no probing is
involved in producing them.  With `port_range = (1, 65535)` the call
succeeds and yields 65535 outcomes. -/
theorem scan_ports_validation (net : String → Int → Option String)
    (sched : List Int → List (Int × Option String)) (host : String)
    (hs : SchedValid sched) :
    scan_ports net sched host none none = Except.error msgNoPorts ∧
    scan_ports net sched host none (some (0, 10)) = Except.error msgBadRange ∧
    scan_ports net sched host none (some (100, 50)) = Except.error msgBadRange ∧
    ∃ r, scan_ports net sched host none (some (1, 65535)) = Except.ok r ∧
      r.open_ports.length + r.closed_or_filtered.length = 65535 := by
  refine ⟨rfl, rfl, rfl, runScan net host (sched (rangeList 1 65535)), rfl, ?_⟩
  rw [runScan_length net host (sched (rangeList 1 65535))]
  have h := (hs (rangeList 1 65535)).length_eq
  rw [List.length_map] at h
  rw [h, rangeList_length]
  rfl

/-- Witness for claim C3: the success branch instantiated with the
submission-order scheduler and the all-refusing network. -/
theorem scan_ports_validation_witness :
    SchedValid schedId ∧
    (scan_ports netAllClosed schedId "h" none none = Except.error msgNoPorts ∧
      scan_ports netAllClosed schedId "h" none (some (0, 10)) = Except.error msgBadRange ∧
      scan_ports netAllClosed schedId "h" none (some (100, 50)) = Except.error msgBadRange ∧
      ∃ r, scan_ports netAllClosed schedId "h" none (some (1, 65535)) = Except.ok r ∧
        r.open_ports.length + r.closed_or_filtered.length = 65535) :=
  ⟨schedId_valid, scan_ports_validation netAllClosed schedId "h" schedId_valid⟩

/-- Claim C6: when both `ports` and `port_range` are supplied, `ports` takes
precedence: the call is literally the same computation as with
`port_range` absent, for every value of `port_range`, malformed ones
included; in particular an integer `ports` list together with the invalid
range `(0, 0)` still succeeds. -/
theorem scan_ports_ports_precedence (net : String → Int → Option String)
    (sched : List Int → List (Int × Option String)) (host : String) :
    (∀ (ps : List PyVal) (pr : Int × Int),
      scan_ports net sched host (some ps) (some pr) =
        scan_ports net sched host (some ps) none) ∧
    (∀ ns : List Int, ∃ r,
      scan_ports net sched host (some (ns.map PyVal.vInt)) (some (0, 0)) =
        Except.ok r) := by
  constructor
  · intro ps pr
    rfl
  · intro ns
    exact ⟨runScan net host (sched ns),
      scan_ports_ok_core net sched host (some (ns.map PyVal.vInt)) (some (0, 0)) ns
        (coercePorts_map_vInt ns)⟩

/-- Claim C7: an explicit integer `ports` list is accepted without any range
check: for any integers, out of `[1, 65535]` or not, the call succeeds and
every supplied value appears in the result partition (the two lists
together are a permutation of the supplied values). -/
theorem scan_ports_no_range_check (net : String → Int → Option String)
    (sched : List Int → List (Int × Option String)) (host : String)
    (pr : Option (Int × Int)) (ns : List Int) (hs : SchedValid sched) :
    ∃ r, scan_ports net sched host (some (ns.map PyVal.vInt)) pr = Except.ok r ∧
      (r.open_ports ++ r.closed_or_filtered).Perm ns := by
  refine ⟨runScan net host (sched ns),
    scan_ports_ok_core net sched host (some (ns.map PyVal.vInt)) pr ns
      (coercePorts_map_vInt ns), ?_⟩
  exact (runScan_ports_perm net host (sched ns)).trans (hs ns)

/-- Witness for claim C7: ports 0, 70000 and -5 are all outside
`[1, 65535]`, yet the scan succeeds and reports all three. -/
theorem scan_ports_no_range_check_witness :
    SchedValid schedId ∧
    ∃ r, scan_ports netAllClosed schedId "h"
        (some ([0, 70000, -5].map PyVal.vInt)) none = Except.ok r ∧
      (r.open_ports ++ r.closed_or_filtered).Perm [(0 : Int), 70000, -5] :=
  ⟨schedId_valid,
    scan_ports_no_range_check netAllClosed schedId "h" none [0, 70000, -5]
      schedId_valid⟩

/-- Claim C8: duplicate entries of an explicit `ports` list are not
deduplicated: each occurrence yields its own outcome, so for every port the
number of entries in the combined output lists equals its number of
occurrences in the input list. -/
theorem scan_ports_no_dedup (net : String → Int → Option String)
    (sched : List Int → List (Int × Option String)) (host : String)
    (pr : Option (Int × Int)) (ns : List Int) (hs : SchedValid sched) :
    ∃ r, scan_ports net sched host (some (ns.map PyVal.vInt)) pr = Except.ok r ∧
      ∀ p : Int, r.open_ports.count p + r.closed_or_filtered.count p =
        ns.count p := by
  refine ⟨runScan net host (sched ns),
    scan_ports_ok_core net sched host (some (ns.map PyVal.vInt)) pr ns
      (coercePorts_map_vInt ns), ?_⟩
  intro p
  rw [runScan_count net host (sched ns) p]
  exact (hs ns).count_eq p

/-- Witness for claim C8: the list `[80, 80, 443]` with a duplicated port. -/
theorem scan_ports_no_dedup_witness :
    SchedValid schedId ∧
    ∃ r, scan_ports netAllClosed schedId "h"
        (some ([80, 80, 443].map PyVal.vInt)) none = Except.ok r ∧
      ∀ p : Int, r.open_ports.count p + r.closed_or_filtered.count p =
        ([(80 : Int), 80, 443]).count p :=
  ⟨schedId_valid,
    scan_ports_no_dedup netAllClosed schedId "h" none [80, 80, 443] schedId_valid⟩

/-- Claim C9: `get_network_configs` returns status `success` with the
captured standard output whenever the invocation runs, whatever the exit
code of the invoked command, and returns status `error` with the error
description, rather than raising, when the invocation cannot be started. -/
theorem get_network_configs_contract :
    (∀ cp : CompletedProcess, get_network_configs (Except.ok cp) =
      { status := "success", network_configs := cp.stdout }) ∧
    (∀ e : String, get_network_configs (Except.error e) =
      { status := "error", network_configs := e }) :=
  ⟨fun _ => rfl, fun _ => rfl⟩

/-- Claim C10: a `ports` element that `int(p)` cannot coerce makes the whole
call raise, for every network and scheduler oracle (hence before any probe
is dispatched), with an error distinct from the two specified
`InvalidArgument` messages. -/
theorem scan_ports_coercion_raises (net : String → Int → Option String)
    (sched : List Int → List (Int × Option String)) (host : String)
    (pr : Option (Int × Int)) :
    scan_ports net sched host (some [PyVal.vStr "p80"]) pr =
      Except.error "invalid literal for int() with base 10: p80" ∧
    "invalid literal for int() with base 10: p80" ≠ msgNoPorts ∧
    "invalid literal for int() with base 10: p80" ≠ msgBadRange := by
  refine ⟨?_, by decide, by decide⟩
  cases pr with
  | none => rfl
  | some q => rfl

/-- Claim C1 (amended): for every valid scan request whose derived ports
list has no duplicate entries (always the case for a range request), the
returned `ScanResult` partitions the requested ports: the two lists are
disjoint, their union as a set is exactly the requested port set, and their
total length is the number of distinct requested ports.  The original claim
without the no-duplicates proviso is refuted by
`scan_ports_partition_cex`. -/
theorem scan_ports_partition_nodup (net : String → Int → Option String)
    (sched : List Int → List (Int × Option String)) (host : String)
    (ports : Option (List PyVal)) (pr : Option (Int × Int)) (pl : List Int)
    (r : ScanResult)
    (hs : SchedValid sched)
    (hb : buildPortsList ports pr = Except.ok pl)
    (hnd : pl.Nodup)
    (hr : scan_ports net sched host ports pr = Except.ok r) :
    r.open_ports.Disjoint r.closed_or_filtered ∧
    (∀ p : Int, (p ∈ r.open_ports ∨ p ∈ r.closed_or_filtered) ↔ p ∈ pl) ∧
    r.open_ports.length + r.closed_or_filtered.length = pl.dedup.length := by
  have hre : r = runScan net host (sched pl) :=
    scan_ports_ok_inv net sched host ports pr pl r hb hr
  subst hre
  have hperm : ((runScan net host (sched pl)).open_ports ++
      (runScan net host (sched pl)).closed_or_filtered).Perm pl :=
    (runScan_ports_perm net host (sched pl)).trans (hs pl)
  refine ⟨?_, ?_, ?_⟩
  · have hnodup := hperm.nodup_iff.mpr hnd
    exact (List.nodup_append.mp hnodup).2.2
  · intro p
    rw [← List.mem_append]
    exact hperm.mem_iff
  · have hlen := hperm.length_eq
    rw [List.length_append] at hlen
    rw [hnd.dedup]
    exact hlen

/-- Counterexample to claim C1 as stated: the explicit list `[80, 80]` is a
valid request, but the scan yields two outcomes while there is only one
distinct requested port, so the length clause of the claim fails. -/
theorem scan_ports_partition_cex :
    (scan_ports netAllClosed schedId "h"
        (some [PyVal.vInt 80, PyVal.vInt 80]) none).toOption.map
      (fun r => r.open_ports.length + r.closed_or_filtered.length) = some 2 ∧
    ([(80 : Int), 80].dedup.length = 1) ∧ (2 : Nat) ≠ 1 := by
  refine ⟨rfl, ?_, by decide⟩
  rfl

/-- Witness for the amended claim C1: two distinct ports against the
all-refusing network. -/
theorem scan_ports_partition_nodup_witness :
    SchedValid schedId ∧
    buildPortsList (some [PyVal.vInt 22, PyVal.vInt 80]) none = Except.ok [22, 80] ∧
    ([(22 : Int), 80]).Nodup ∧
    ∃ r, scan_ports netAllClosed schedId "h"
        (some [PyVal.vInt 22, PyVal.vInt 80]) none = Except.ok r ∧
      (r.open_ports.Disjoint r.closed_or_filtered ∧
        (∀ p : Int, (p ∈ r.open_ports ∨ p ∈ r.closed_or_filtered) ↔
          p ∈ [(22 : Int), 80]) ∧
        r.open_ports.length + r.closed_or_filtered.length =
          [(22 : Int), 80].dedup.length) := by
  refine ⟨schedId_valid, rfl, by decide, runScan netAllClosed "h" (schedId [22, 80]),
    rfl, ?_⟩
  exact scan_ports_partition_nodup netAllClosed schedId "h"
    (some [PyVal.vInt 22, PyVal.vInt 80]) none [22, 80] _ schedId_valid rfl
    (by decide) rfl

/-- Claim C4 (amended): both result lists are sorted in non-decreasing
order, and they are strictly ascending whenever the derived ports list has
no duplicate entries.  The original claim, strict ascent for every result,
is refuted by `scan_ports_sorted_cex`. -/
theorem scan_ports_sorted (net : String → Int → Option String)
    (sched : List Int → List (Int × Option String)) (host : String)
    (ports : Option (List PyVal)) (pr : Option (Int × Int)) (pl : List Int)
    (r : ScanResult)
    (hs : SchedValid sched)
    (hb : buildPortsList ports pr = Except.ok pl)
    (hr : scan_ports net sched host ports pr = Except.ok r) :
    r.open_ports.Sorted (fun a b : Int => a ≤ b) ∧
    r.closed_or_filtered.Sorted (fun a b : Int => a ≤ b) ∧
    (pl.Nodup →
      r.open_ports.Sorted (fun a b : Int => a < b) ∧
      r.closed_or_filtered.Sorted (fun a b : Int => a < b)) := by
  have hre : r = runScan net host (sched pl) :=
    scan_ports_ok_inv net sched host ports pr pl r hb hr
  subst hre
  refine ⟨runScan_open_sorted net host (sched pl), runScan_closed_sorted net host (sched pl), ?_⟩
  intro hnd
  have hperm : ((runScan net host (sched pl)).open_ports ++
      (runScan net host (sched pl)).closed_or_filtered).Perm pl :=
    (runScan_ports_perm net host (sched pl)).trans (hs pl)
  have hnodup := hperm.nodup_iff.mpr hnd
  rcases List.nodup_append.mp hnodup with ⟨hno, hnc, _⟩
  exact ⟨(runScan_open_sorted net host (sched pl)).lt_of_le hno,
    (runScan_closed_sorted net host (sched pl)).lt_of_le hnc⟩

/-- Counterexample to claim C4 as stated: with the valid explicit list
`[80, 80]` and every probe succeeding, `open_ports` is `[80, 80]`, which is
not strictly ascending. -/
theorem scan_ports_sorted_cex :
    (scan_ports netAllOpen schedId "h"
        (some [PyVal.vInt 80, PyVal.vInt 80]) none).toOption.map
      (fun r => r.open_ports) = some [80, 80] ∧
    ¬ List.Sorted (fun a b : Int => a < b) [80, 80] := by
  refine ⟨rfl, ?_⟩
  intro h
  have h80 := List.rel_of_sorted_cons h 80 (List.mem_singleton.mpr rfl)
  exact absurd h80 (lt_irrefl 80)

/-- Witness for the amended claim C4: duplicate-free list `[443, 80]`
against the network where only port 443 is open. -/
theorem scan_ports_sorted_witness :
    SchedValid schedId ∧
    buildPortsList (some [PyVal.vInt 443, PyVal.vInt 80]) none = Except.ok [443, 80] ∧
    ∃ r, scan_ports netTimeout80 schedId "h"
        (some [PyVal.vInt 443, PyVal.vInt 80]) none = Except.ok r ∧
      (r.open_ports.Sorted (fun a b : Int => a ≤ b) ∧
        r.closed_or_filtered.Sorted (fun a b : Int => a ≤ b) ∧
        (([(443 : Int), 80]).Nodup →
          r.open_ports.Sorted (fun a b : Int => a < b) ∧
          r.closed_or_filtered.Sorted (fun a b : Int => a < b))) := by
  refine ⟨schedId_valid, rfl, runScan netTimeout80 "h" (schedId [443, 80]), rfl, ?_⟩
  exact scan_ports_sorted netTimeout80 schedId "h"
    (some [PyVal.vInt 443, PyVal.vInt 80]) none [443, 80] _ schedId_valid rfl rfl

/-- Claim C5: in every returned `ScanResult` the `errors` list has no two
equal strings, every entry stems from a consumed outcome that is not open
and carries a non-empty error text, and the list is exactly the distinct
raw messages in first-occurrence order of the consumed outcomes
(`firstOccurrences` of the raw message sequence). -/
theorem scan_ports_errors_spec (net : String → Int → Option String)
    (sched : List Int → List (Int × Option String)) (host : String)
    (ports : Option (List PyVal)) (pr : Option (Int × Int)) (pl : List Int)
    (r : ScanResult)
    (hb : buildPortsList ports pr = Except.ok pl)
    (hr : scan_ports net sched host ports pr = Except.ok r) :
    r.errors.Nodup ∧
    (∀ e ∈ r.errors, ∃ t ∈ sched pl,
      taskIsOpen net host t = false ∧ taskError net host t = some e ∧ e ≠ "") ∧
    r.errors = firstOccurrences ((sched pl).filterMap (taskError net host)) := by
  have hre : r = runScan net host (sched pl) :=
    scan_ports_ok_inv net sched host ports pr pl r hb hr
  subst hre
  rw [runScan_errors_eq net host (sched pl)]
  refine ⟨pyDedup_nodup _, ?_, pyDedup_eq_firstOccurrences _⟩
  intro e he
  rw [mem_pyDedup] at he
  rcases List.mem_filterMap.mp he with ⟨t, ht, hte⟩
  exact ⟨t, ht, taskError_not_open net host t e hte, hte,
    taskError_ne_empty net host t e hte⟩

/-- Witness for claim C5: ports `[80, 443, 80]` against the network where
only 443 is open, producing a duplicated raw timeout message that the
result deduplicates. -/
theorem scan_ports_errors_spec_witness :
    buildPortsList (some [PyVal.vInt 80, PyVal.vInt 443, PyVal.vInt 80]) none =
      Except.ok [80, 443, 80] ∧
    ∃ r, scan_ports netTimeout80 schedId "h"
        (some [PyVal.vInt 80, PyVal.vInt 443, PyVal.vInt 80]) none = Except.ok r ∧
      (r.errors.Nodup ∧
        (∀ e ∈ r.errors, ∃ t ∈ schedId [80, 443, 80],
          taskIsOpen netTimeout80 "h" t = false ∧
            taskError netTimeout80 "h" t = some e ∧ e ≠ "") ∧
        r.errors = firstOccurrences
          ((schedId [80, 443, 80]).filterMap (taskError netTimeout80 "h"))) := by
  refine ⟨rfl, runScan netTimeout80 "h" (schedId [80, 443, 80]), rfl, ?_⟩
  exact scan_ports_errors_spec netTimeout80 schedId "h"
    (some [PyVal.vInt 80, PyVal.vInt 443, PyVal.vInt 80]) none [80, 443, 80] _
    rfl rfl
